import Mathlib

/-!
Shallow embedding of `src/trace_processor/importers/common/flow_tracker.cc`
(perfetto trace processor, FlowTracker).

The C++ class owns four maps plus a counter:
  * `flow_to_slice_map_        : FlowId -> SliceId`   (the Open-Flow table)
  * `pending_flow_ids_map_     : TrackId -> vector<FlowId>`
  * `v1_flow_id_to_flow_id_map : V1FlowId -> FlowId`
  * `flow_id_to_v1_flow_id_map : FlowId -> V1FlowId`
  * `v1_id_counter_            : uint64_t`
and talks to external collaborators: the slice tracker (queried with
`GetTopmostSliceOnTrack`, whose answer we pass to each operation as an
`Option SliceId` argument, since the slice stack is owned elsewhere), the
storage (flow table rows and statistics counters, embedded here as fields of
the state) and the args tracker (embedded as the per-row `args`/`flushes`
data, since the C++ code attaches the args to the freshly inserted row and
flushes immediately).

The `std::unordered_map`s are embedded as association lists with
lookup / insert-or-assign / erase helpers; key iteration order is never
observed by the translated code (the only iterated container is the
per-track `std::vector<FlowId>`, which is ordered and is a `List`).
-/

set_option autoImplicit false

namespace FlowVerif

abbrev TrackId := Nat
abbrev FlowId := Nat
abbrev SliceId := Nat

/-- Interned string handle. The storage collaborator interns strings
injectively (equal strings get the same handle, distinct strings distinct
handles), so the handle is embedded as the string itself. -/
abbrev StringId := String

/-- Models `TraceStorage::InternString`: with `StringId` embedded as the
interned string itself, interning is the identity map. -/
def InternString (s : String) : StringId := s

/-- Modelled from the spec: the struct `V1FlowId` is declared in
`flow_tracker.h`, which is not among the sources; its field list is visible
in the aggregate initialisation `V1FlowId v1_flow_id = {source_id, cat, name}`
in `GetFlowIdForV1Event`, and the spec says two events with the same
`(source_id, category, name)` triple denote the same legacy flow, so map-key
equality is componentwise. -/
structure V1FlowId where
  source_id : Nat
  cat : StringId
  name : StringId
deriving DecidableEq

/-- One row of the storage flow table together with the argument batch the
args tracker received for it: `InsertFlow` inserts the row and then either
attaches no args or attaches exactly `(name_key, name)` then `(cat_key, cat)`
and flushes once. -/
structure EdgeRow where
  slice_out : SliceId
  slice_in : SliceId
  args : List (StringId × StringId)
  flushes : Nat
deriving DecidableEq

/-- The four statistics counters the tracker increments. -/
structure Stats where
  flow_no_enclosing_slice : Nat
  flow_duplicate_id : Nat
  flow_step_without_start : Nat
  flow_end_without_start : Nat
deriving DecidableEq

section MapHelpers

variable {α β : Type} [DecidableEq α]

/-- First-match lookup in an association list (`unordered_map::find`). -/
def mapFind? : List (α × β) → α → Option β
  | [], _ => none
  | (k', v') :: rest, k => if k' = k then some v' else mapFind? rest k

/-- Insert-or-assign (`unordered_map::operator[] = v`): replaces the value of
the first entry with the given key, or appends a fresh entry. -/
def mapInsert : List (α × β) → α → β → List (α × β)
  | [], k, v => [(k, v)]
  | (k', v') :: rest, k, v =>
      if k' = k then (k, v) :: rest else (k', v') :: mapInsert rest k v

/-- Erase every entry with the given key (`unordered_map::erase`; the maps
hold at most one entry per key, so this is the single-entry erase). -/
def mapErase : List (α × β) → α → List (α × β)
  | [], _ => []
  | (k', v') :: rest, k =>
      if k' = k then mapErase rest k else (k', v') :: mapErase rest k

theorem mapFind_nil (k : α) : mapFind? ([] : List (α × β)) k = none := rfl

theorem mapFind_insert_self (m : List (α × β)) (k : α) (v : β) :
    mapFind? (mapInsert m k v) k = some v := by
  induction m with
  | nil => simp [mapInsert, mapFind?]
  | cons p rest ih =>
    obtain ⟨a, b⟩ := p
    by_cases h : a = k
    · subst h
      simp [mapInsert, mapFind?]
    · simp [mapInsert, mapFind?, h, ih]

theorem mapFind_insert_ne (m : List (α × β)) (k k' : α) (v : β) (h : k' ≠ k) :
    mapFind? (mapInsert m k v) k' = mapFind? m k' := by
  have hk : ¬ k = k' := fun e => h e.symm
  induction m with
  | nil => simp [mapInsert, mapFind?, hk]
  | cons p rest ih =>
    obtain ⟨a, b⟩ := p
    by_cases ha : a = k
    · subst ha
      simp [mapInsert, mapFind?, hk]
    · simp [mapInsert, mapFind?, ha, ih]

theorem mapFind_erase_self (m : List (α × β)) (k : α) :
    mapFind? (mapErase m k) k = none := by
  induction m with
  | nil => simp [mapErase, mapFind?]
  | cons p rest ih =>
    obtain ⟨a, b⟩ := p
    by_cases h : a = k
    · simp [mapErase, h, ih]
    · simp [mapErase, mapFind?, h, ih]

theorem mapFind_erase_ne (m : List (α × β)) (k k' : α) (h : k' ≠ k) :
    mapFind? (mapErase m k) k' = mapFind? m k' := by
  have hk : ¬ k = k' := fun e => h e.symm
  induction m with
  | nil => simp [mapErase]
  | cons p rest ih =>
    obtain ⟨a, b⟩ := p
    by_cases ha : a = k
    · subst ha
      simp [mapErase, mapFind?, hk, ih]
    · simp [mapErase, mapFind?, ha, ih]

theorem mapFind_mem {m : List (α × β)} {k : α} {v : β}
    (h : mapFind? m k = some v) : (k, v) ∈ m := by
  induction m with
  | nil => simp [mapFind?] at h
  | cons p rest ih =>
    obtain ⟨a, b⟩ := p
    by_cases ha : a = k
    · subst ha
      simp [mapFind?] at h
      simp [h]
    · simp only [mapFind?, if_neg ha] at h
      exact List.mem_cons_of_mem _ (ih h)

theorem mapInsert_of_find_none {m : List (α × β)} {k : α}
    (h : mapFind? m k = none) (v : β) : mapInsert m k v = m ++ [(k, v)] := by
  induction m with
  | nil => simp [mapInsert]
  | cons p rest ih =>
    obtain ⟨a, b⟩ := p
    by_cases ha : a = k
    · subst ha
      simp [mapFind?] at h
    · simp only [mapFind?, if_neg ha] at h
      simp [mapInsert, ha, ih h]

theorem mapFind_inj {m : List (α × β)} {a b : α} {x y : β}
    (hnd : (m.map Prod.snd).Nodup)
    (ha : mapFind? m a = some x) (hb : mapFind? m b = some y)
    (hab : a ≠ b) : x ≠ y := by
  intro hxy
  subst hxy
  have hmem_a : (a, x) ∈ m := mapFind_mem ha
  have hmem_b : (b, x) ∈ m := mapFind_mem hb
  have := List.inj_on_of_nodup_map hnd hmem_a hmem_b rfl
  exact hab (congrArg Prod.fst this)

end MapHelpers

/-- The state of one `FlowTracker` instance, together with the observable
effects it has produced on its storage collaborator (flow-table rows with
their attached argument batches, and the statistics counters). -/
structure FlowTracker where
  flow_to_slice_map : List (FlowId × SliceId)
  pending_flow_ids_map : List (TrackId × List FlowId)
  v1_flow_id_to_flow_id_map : List (V1FlowId × FlowId)
  flow_id_to_v1_flow_id_map : List (FlowId × V1FlowId)
  v1_id_counter : Nat
  name_key_id : StringId
  cat_key_id : StringId
  flow_table : List EdgeRow
  stats : Stats
deriving DecidableEq

/-- Modelled from the spec: the initial value of `v1_id_counter_` is set in
`flow_tracker.h`, which is not among the sources; the spec only says the
synthetic ids start from a fixed base, so the base is a parameter. The
constructor body (interning the literals "name" and "cat" into
`name_key_id_` / `cat_key_id_`) is in the source. -/
def initFlowTracker (v1_base : Nat) : FlowTracker :=
  { flow_to_slice_map := []
    pending_flow_ids_map := []
    v1_flow_id_to_flow_id_map := []
    flow_id_to_v1_flow_id_map := []
    v1_id_counter := v1_base % 2 ^ 64
    name_key_id := InternString "name"
    cat_key_id := InternString "cat"
    flow_table := []
    stats := ⟨0, 0, 0, 0⟩ }

/-- The argument batch `InsertFlow` hands to the args tracker for a new row:
nothing when `flow_id_to_v1_flow_id_map_.find(flow_id)` misses, otherwise
`AddArg(name_key_id_, name)` then `AddArg(cat_key_id_, cat)` followed by one
`Flush()` (returned as the pair (arg list, number of flushes)). -/
def v1ArgsFor (t : FlowTracker) (flow_id : FlowId) :
    List (StringId × StringId) × Nat :=
  match mapFind? t.flow_id_to_v1_flow_id_map flow_id with
  | none => ([], 0)
  | some v1 => ([(t.name_key_id, v1.name), (t.cat_key_id, v1.cat)], 1)

/-- `FlowTracker::InsertFlow`: insert a `(slice_out, slice_in)` row into the
flow table; if the flow id has a v1 identity, attach the name and cat args to
that row and flush. -/
def FlowTracker.InsertFlow (t : FlowTracker) (flow_id : FlowId)
    (slice_out_id slice_in_id : SliceId) : FlowTracker :=
  { t with flow_table := t.flow_table ++
      [{ slice_out := slice_out_id
         slice_in := slice_in_id
         args := (v1ArgsFor t flow_id).1
         flushes := (v1ArgsFor t flow_id).2 }] }

/-- `FlowTracker::Begin`. `open_slice_id` is the answer of the external
slice tracker's `GetTopmostSliceOnTrack(track_id)` at call time. -/
def FlowTracker.Begin (t : FlowTracker) (track_id : TrackId)
    (open_slice_id : Option SliceId) (flow_id : FlowId) : FlowTracker :=
  match open_slice_id with
  | none =>
      { t with stats := { t.stats with
          flow_no_enclosing_slice := t.stats.flow_no_enclosing_slice + 1 } }
  | some open_slice =>
      match mapFind? t.flow_to_slice_map flow_id with
      | some _ =>
          { t with stats := { t.stats with
              flow_duplicate_id := t.stats.flow_duplicate_id + 1 } }
      | none =>
          { t with flow_to_slice_map :=
              mapInsert t.flow_to_slice_map flow_id open_slice }

/-- `FlowTracker::Step`. -/
def FlowTracker.Step (t : FlowTracker) (track_id : TrackId)
    (open_slice_id : Option SliceId) (flow_id : FlowId) : FlowTracker :=
  match open_slice_id with
  | none =>
      { t with stats := { t.stats with
          flow_no_enclosing_slice := t.stats.flow_no_enclosing_slice + 1 } }
  | some open_slice =>
      match mapFind? t.flow_to_slice_map flow_id with
      | none =>
          { t with stats := { t.stats with
              flow_step_without_start := t.stats.flow_step_without_start + 1 } }
      | some slice_out_id =>
          let t' := FlowTracker.InsertFlow t flow_id slice_out_id open_slice
          { t' with flow_to_slice_map :=
              mapInsert t'.flow_to_slice_map flow_id open_slice }

/-- `pending_flow_ids_map_[track_id].push_back(flow_id)`: `operator[]`
default-constructs an empty vector for an absent track before appending. -/
def pendPush (m : List (TrackId × List FlowId)) (track_id : TrackId)
    (flow_id : FlowId) : List (TrackId × List FlowId) :=
  mapInsert m track_id ((mapFind? m track_id).getD [] ++ [flow_id])

/-- `FlowTracker::End`. -/
def FlowTracker.End (t : FlowTracker) (track_id : TrackId)
    (open_slice_id : Option SliceId) (flow_id : FlowId)
    (bind_enclosing_slice close_flow : Bool) : FlowTracker :=
  match bind_enclosing_slice with
  | false =>
      { t with pending_flow_ids_map :=
          pendPush t.pending_flow_ids_map track_id flow_id }
  | true =>
      match open_slice_id with
      | none =>
          { t with stats := { t.stats with
              flow_no_enclosing_slice := t.stats.flow_no_enclosing_slice + 1 } }
      | some open_slice =>
          match mapFind? t.flow_to_slice_map flow_id with
          | none =>
              { t with stats := { t.stats with
                  flow_end_without_start := t.stats.flow_end_without_start + 1 } }
          | some slice_out_id =>
              let t' : FlowTracker :=
                match close_flow with
                | true =>
                    { t with
                      flow_to_slice_map := mapErase t.flow_to_slice_map flow_id }
                | false => t
              FlowTracker.InsertFlow t' flow_id slice_out_id open_slice

/-- `FlowTracker::IsActive`. -/
def FlowTracker.IsActive (t : FlowTracker) (flow_id : FlowId) : Bool :=
  (mapFind? t.flow_to_slice_map flow_id).isSome

/-- `FlowTracker::GetFlowIdForV1Event`. Returns the flow id together with
the updated tracker; `FlowId new_id = v1_id_counter_++` on the `uint64_t`
counter is a post-increment modulo `2 ^ 64`. -/
def FlowTracker.GetFlowIdForV1Event (t : FlowTracker) (source_id : Nat)
    (cat name : StringId) : FlowId × FlowTracker :=
  match mapFind? t.v1_flow_id_to_flow_id_map ⟨source_id, cat, name⟩ with
  | some id => (id, t)
  | none =>
      let new_id := t.v1_id_counter
      (new_id,
        { t with
            v1_id_counter := (t.v1_id_counter + 1) % 2 ^ 64
            flow_id_to_v1_flow_id_map :=
              mapInsert t.flow_id_to_v1_flow_id_map new_id ⟨source_id, cat, name⟩
            v1_flow_id_to_flow_id_map :=
              mapInsert t.v1_flow_id_to_flow_id_map ⟨source_id, cat, name⟩ new_id })

/-- `SliceId slice_out_id = flow_to_slice_map_[flow_id]` in
`ClosePendingEventsOnTrack`: `unordered_map::operator[]` in a read position
value-initialises an absent mapped `SliceId` (value 0) and inserts it. -/
def flowMapBracket (t : FlowTracker) (flow_id : FlowId) :
    SliceId × FlowTracker :=
  match mapFind? t.flow_to_slice_map flow_id with
  | some s => (s, t)
  | none =>
      (0, { t with flow_to_slice_map := mapInsert t.flow_to_slice_map flow_id 0 })

/-- The loop body of `ClosePendingEventsOnTrack` over the pending vector of
one track (in vector order). -/
def resolvePendingFlows (slice_id : SliceId) :
    FlowTracker → List FlowId → FlowTracker
  | t, [] => t
  | t, flow_id :: rest =>
      let p := flowMapBracket t flow_id
      resolvePendingFlows slice_id
        (FlowTracker.InsertFlow p.2 flow_id p.1 slice_id) rest

/-- `FlowTracker::ClosePendingEventsOnTrack`. The loop mutates only
`flow_to_slice_map_` and the storage, never `pending_flow_ids_map_`, so
erasing the track's entry after the loop is the saved-iterator erase of the
C++ code. -/
def FlowTracker.ClosePendingEventsOnTrack (t : FlowTracker)
    (track_id : TrackId) (slice_id : SliceId) : FlowTracker :=
  match mapFind? t.pending_flow_ids_map track_id with
  | none => t
  | some flows =>
      let t' := resolvePendingFlows slice_id t flows
      { t' with pending_flow_ids_map :=
          mapErase t'.pending_flow_ids_map track_id }

/-- The edges (slice_out, slice_in) persisted so far, in emission order. -/
def FlowTracker.edges (t : FlowTracker) : List (SliceId × SliceId) :=
  t.flow_table.map (fun e => (e.slice_out, e.slice_in))

/-- One driver call into the tracker. `Begin`/`Step`/`End` carry the answer
the external slice tracker gives for the queried track at call time. -/
inductive Op where
  | opBegin (track_id : TrackId) (openSlice : Option SliceId) (flow_id : FlowId)
  | opStep (track_id : TrackId) (openSlice : Option SliceId) (flow_id : FlowId)
  | opEnd (track_id : TrackId) (openSlice : Option SliceId) (flow_id : FlowId)
      (bind_enclosing_slice close_flow : Bool)
  | opClosePending (track_id : TrackId) (slice_id : SliceId)
  | opGetFlowIdForV1Event (source_id : Nat) (cat name : StringId)

def applyOp (t : FlowTracker) : Op → FlowTracker
  | .opBegin tr os f => t.Begin tr os f
  | .opStep tr os f => t.Step tr os f
  | .opEnd tr os f b c => t.End tr os f b c
  | .opClosePending tr s => t.ClosePendingEventsOnTrack tr s
  | .opGetFlowIdForV1Event s c n => (t.GetFlowIdForV1Event s c n).2

def runOps (t : FlowTracker) : List Op → FlowTracker
  | [] => t
  | op :: ops => runOps (applyOp t op) ops

/-- A tracker state is reachable when some driver call sequence produces it
from a freshly constructed tracker (with some counter base). -/
def Reachable (t : FlowTracker) : Prop :=
  ∃ base ops, t = runOps (initFlowTracker base) ops

theorem runOps_append (t : FlowTracker) (l1 l2 : List Op) :
    runOps t (l1 ++ l2) = runOps (runOps t l1) l2 := by
  induction l1 generalizing t with
  | nil => rfl
  | cons op rest ih => simp [runOps, ih]

theorem Reachable.runOps {t : FlowTracker} (h : Reachable t) (ops : List Op) :
    Reachable (FlowVerif.runOps t ops) := by
  obtain ⟨base, ops0, rfl⟩ := h
  exact ⟨base, ops0 ++ ops, (runOps_append _ _ _).symm⟩

/-! Shape lemmas: each branch of each operation, with the branch condition
as a hypothesis on the state. -/

theorem Begin_no_slice (t : FlowTracker) (tr : TrackId) (f : FlowId) :
    t.Begin tr none f = { t with stats := { t.stats with
        flow_no_enclosing_slice := t.stats.flow_no_enclosing_slice + 1 } } := rfl

theorem Begin_dup (t : FlowTracker) (tr : TrackId) (f : FlowId)
    (s0 sl : SliceId) (h : mapFind? t.flow_to_slice_map f = some s0) :
    t.Begin tr (some sl) f = { t with stats := { t.stats with
        flow_duplicate_id := t.stats.flow_duplicate_id + 1 } } := by
  unfold FlowTracker.Begin
  rw [h]

theorem Begin_success (t : FlowTracker) (tr : TrackId) (f : FlowId)
    (sl : SliceId) (h : mapFind? t.flow_to_slice_map f = none) :
    t.Begin tr (some sl) f =
      { t with flow_to_slice_map := mapInsert t.flow_to_slice_map f sl } := by
  unfold FlowTracker.Begin
  rw [h]

theorem Step_no_slice (t : FlowTracker) (tr : TrackId) (f : FlowId) :
    t.Step tr none f = { t with stats := { t.stats with
        flow_no_enclosing_slice := t.stats.flow_no_enclosing_slice + 1 } } := rfl

theorem Step_no_start (t : FlowTracker) (tr : TrackId) (f : FlowId)
    (sl : SliceId) (h : mapFind? t.flow_to_slice_map f = none) :
    t.Step tr (some sl) f = { t with stats := { t.stats with
        flow_step_without_start := t.stats.flow_step_without_start + 1 } } := by
  unfold FlowTracker.Step
  rw [h]

theorem Step_success (t : FlowTracker) (tr : TrackId) (f : FlowId)
    (s_out s_cur : SliceId) (h : mapFind? t.flow_to_slice_map f = some s_out) :
    t.Step tr (some s_cur) f =
      { t.InsertFlow f s_out s_cur with
        flow_to_slice_map := mapInsert t.flow_to_slice_map f s_cur } := by
  unfold FlowTracker.Step
  rw [h]
  rfl

theorem End_deferred (t : FlowTracker) (tr : TrackId) (os : Option SliceId)
    (f : FlowId) (cf : Bool) :
    t.End tr os f false cf =
      { t with pending_flow_ids_map :=
          pendPush t.pending_flow_ids_map tr f } := rfl

theorem End_no_slice (t : FlowTracker) (tr : TrackId) (f : FlowId) (cf : Bool) :
    t.End tr none f true cf = { t with stats := { t.stats with
        flow_no_enclosing_slice := t.stats.flow_no_enclosing_slice + 1 } } := rfl

theorem End_no_start (t : FlowTracker) (tr : TrackId) (f : FlowId)
    (sl : SliceId) (cf : Bool) (h : mapFind? t.flow_to_slice_map f = none) :
    t.End tr (some sl) f true cf = { t with stats := { t.stats with
        flow_end_without_start := t.stats.flow_end_without_start + 1 } } := by
  unfold FlowTracker.End
  rw [h]

theorem End_success_noclose (t : FlowTracker) (tr : TrackId) (f : FlowId)
    (s_out s_cur : SliceId) (h : mapFind? t.flow_to_slice_map f = some s_out) :
    t.End tr (some s_cur) f true false = t.InsertFlow f s_out s_cur := by
  unfold FlowTracker.End
  rw [h]

theorem End_success_close (t : FlowTracker) (tr : TrackId) (f : FlowId)
    (s_out s_cur : SliceId) (h : mapFind? t.flow_to_slice_map f = some s_out) :
    t.End tr (some s_cur) f true true =
      FlowTracker.InsertFlow
        { t with flow_to_slice_map := mapErase t.flow_to_slice_map f }
        f s_out s_cur := by
  unfold FlowTracker.End
  rw [h]

theorem Get_found (t : FlowTracker) (s : Nat) (c n : StringId) (id : FlowId)
    (h : mapFind? t.v1_flow_id_to_flow_id_map ⟨s, c, n⟩ = some id) :
    t.GetFlowIdForV1Event s c n = (id, t) := by
  unfold FlowTracker.GetFlowIdForV1Event
  rw [h]

theorem Get_fresh (t : FlowTracker) (s : Nat) (c n : StringId)
    (h : mapFind? t.v1_flow_id_to_flow_id_map ⟨s, c, n⟩ = none) :
    t.GetFlowIdForV1Event s c n =
      (t.v1_id_counter,
        { t with
            v1_id_counter := (t.v1_id_counter + 1) % 2 ^ 64
            flow_id_to_v1_flow_id_map :=
              mapInsert t.flow_id_to_v1_flow_id_map t.v1_id_counter ⟨s, c, n⟩
            v1_flow_id_to_flow_id_map :=
              mapInsert t.v1_flow_id_to_flow_id_map ⟨s, c, n⟩ t.v1_id_counter }) := by
  unfold FlowTracker.GetFlowIdForV1Event
  rw [h]

theorem bracket_found (t : FlowTracker) (f : FlowId) (s : SliceId)
    (h : mapFind? t.flow_to_slice_map f = some s) :
    flowMapBracket t f = (s, t) := by
  unfold flowMapBracket
  rw [h]

theorem bracket_missing (t : FlowTracker) (f : FlowId)
    (h : mapFind? t.flow_to_slice_map f = none) :
    flowMapBracket t f =
      (0, { t with flow_to_slice_map := mapInsert t.flow_to_slice_map f 0 }) := by
  unfold flowMapBracket
  rw [h]

theorem ClosePending_no_pending (t : FlowTracker) (tr : TrackId) (s : SliceId)
    (h : mapFind? t.pending_flow_ids_map tr = none) :
    t.ClosePendingEventsOnTrack tr s = t := by
  unfold FlowTracker.ClosePendingEventsOnTrack
  rw [h]

theorem ClosePending_pending (t : FlowTracker) (tr : TrackId) (s : SliceId)
    (fs : List FlowId) (h : mapFind? t.pending_flow_ids_map tr = some fs) :
    t.ClosePendingEventsOnTrack tr s =
      { resolvePendingFlows s t fs with
        pending_flow_ids_map :=
          mapErase (resolvePendingFlows s t fs).pending_flow_ids_map tr } := by
  unfold FlowTracker.ClosePendingEventsOnTrack
  rw [h]

/-! Frame lemmas: which fields each helper leaves untouched. -/

theorem InsertFlow_edges (t : FlowTracker) (f : FlowId) (a b : SliceId) :
    (t.InsertFlow f a b).edges = t.edges ++ [(a, b)] := by
  simp [FlowTracker.edges, FlowTracker.InsertFlow]

theorem bracket_frame (t : FlowTracker) (f : FlowId) :
    (flowMapBracket t f).2.pending_flow_ids_map = t.pending_flow_ids_map ∧
    (flowMapBracket t f).2.v1_flow_id_to_flow_id_map = t.v1_flow_id_to_flow_id_map ∧
    (flowMapBracket t f).2.flow_id_to_v1_flow_id_map = t.flow_id_to_v1_flow_id_map ∧
    (flowMapBracket t f).2.v1_id_counter = t.v1_id_counter ∧
    (flowMapBracket t f).2.name_key_id = t.name_key_id ∧
    (flowMapBracket t f).2.cat_key_id = t.cat_key_id ∧
    (flowMapBracket t f).2.stats = t.stats ∧
    (flowMapBracket t f).2.flow_table = t.flow_table := by
  unfold flowMapBracket
  cases mapFind? t.flow_to_slice_map f <;>
    exact ⟨rfl, rfl, rfl, rfl, rfl, rfl, rfl, rfl⟩

@[simp] theorem InsertFlow_flow_map (t : FlowTracker) (f : FlowId) (a b : SliceId) :
    (t.InsertFlow f a b).flow_to_slice_map = t.flow_to_slice_map := rfl

@[simp] theorem InsertFlow_pending (t : FlowTracker) (f : FlowId) (a b : SliceId) :
    (t.InsertFlow f a b).pending_flow_ids_map = t.pending_flow_ids_map := rfl

@[simp] theorem InsertFlow_v1map (t : FlowTracker) (f : FlowId) (a b : SliceId) :
    (t.InsertFlow f a b).v1_flow_id_to_flow_id_map = t.v1_flow_id_to_flow_id_map := rfl

@[simp] theorem InsertFlow_idmap (t : FlowTracker) (f : FlowId) (a b : SliceId) :
    (t.InsertFlow f a b).flow_id_to_v1_flow_id_map = t.flow_id_to_v1_flow_id_map := rfl

@[simp] theorem InsertFlow_stats (t : FlowTracker) (f : FlowId) (a b : SliceId) :
    (t.InsertFlow f a b).stats = t.stats := rfl

theorem InsertFlow_flow_table (t : FlowTracker) (f : FlowId) (a b : SliceId) :
    (t.InsertFlow f a b).flow_table = t.flow_table ++
      [{ slice_out := a, slice_in := b,
         args := (v1ArgsFor t f).1, flushes := (v1ArgsFor t f).2 }] := rfl

theorem resolve_frame (s : SliceId) (fs : List FlowId) (t : FlowTracker) :
    (resolvePendingFlows s t fs).pending_flow_ids_map = t.pending_flow_ids_map ∧
    (resolvePendingFlows s t fs).v1_flow_id_to_flow_id_map = t.v1_flow_id_to_flow_id_map ∧
    (resolvePendingFlows s t fs).flow_id_to_v1_flow_id_map = t.flow_id_to_v1_flow_id_map ∧
    (resolvePendingFlows s t fs).v1_id_counter = t.v1_id_counter ∧
    (resolvePendingFlows s t fs).name_key_id = t.name_key_id ∧
    (resolvePendingFlows s t fs).cat_key_id = t.cat_key_id ∧
    (resolvePendingFlows s t fs).stats = t.stats := by
  induction fs generalizing t with
  | nil => exact ⟨rfl, rfl, rfl, rfl, rfl, rfl, rfl⟩
  | cons f rest ih =>
    obtain ⟨h1, h2, h3, h4, h5, h6, h7⟩ :=
      ih (FlowTracker.InsertFlow (flowMapBracket t f).2 f (flowMapBracket t f).1 s)
    obtain ⟨b1, b2, b3, b4, b5, b6, b7, b8⟩ := bracket_frame t f
    exact ⟨h1.trans b1, h2.trans b2, h3.trans b3, h4.trans b4,
      h5.trans b5, h6.trans b6, h7.trans b7⟩

/-- An Open-Flow entry present before `ClosePendingEventsOnTrack`'s loop is
still present, with the same slice, after it: the loop only reads the map
through `operator[]`, which inserts only at absent keys. -/
theorem resolve_preserves_entry (s : SliceId) (fs : List FlowId)
    (t : FlowTracker) (f : FlowId) (v : SliceId)
    (h : mapFind? t.flow_to_slice_map f = some v) :
    mapFind? (resolvePendingFlows s t fs).flow_to_slice_map f = some v := by
  induction fs generalizing t with
  | nil => exact h
  | cons g rest ih =>
    simp only [resolvePendingFlows]
    cases hg : mapFind? t.flow_to_slice_map g with
    | some w =>
      rw [bracket_found t g w hg]
      exact ih _ h
    | none =>
      rw [bracket_missing t g hg]
      have hfg : f ≠ g := by
        intro e
        rw [e, hg] at h
        exact Option.noConfusion h
      refine ih _ ?_
      show mapFind? (mapInsert t.flow_to_slice_map g 0) f = some v
      rw [mapFind_insert_ne t.flow_to_slice_map g f 0 hfg]
      exact h

/-- Any Open-Flow entry that the loop of `ClosePendingEventsOnTrack` creates
belongs to a flow id in the pending list and maps it to the value-initialised
slice id 0 (the `operator[]` default insertion). -/
theorem resolve_new_entry (s : SliceId) (fs : List FlowId) (t : FlowTracker)
    (f : FlowId) (v : SliceId)
    (h0 : mapFind? t.flow_to_slice_map f = none)
    (h1 : mapFind? (resolvePendingFlows s t fs).flow_to_slice_map f = some v) :
    f ∈ fs ∧ v = 0 := by
  induction fs generalizing t with
  | nil =>
    rw [show resolvePendingFlows s t [] = t from rfl, h0] at h1
    exact Option.noConfusion h1
  | cons g rest ih =>
    simp only [resolvePendingFlows] at h1
    cases hg : mapFind? t.flow_to_slice_map g with
    | some w =>
      rw [bracket_found t g w hg] at h1
      obtain ⟨hmem, hv⟩ := ih ((w, t).2.InsertFlow g (w, t).1 s) h0 h1
      exact ⟨List.mem_cons_of_mem _ hmem, hv⟩
    | none =>
      rw [bracket_missing t g hg] at h1
      by_cases hfg : f = g
      · subst hfg
        have hpres := resolve_preserves_entry s rest
          (FlowTracker.InsertFlow
            { t with flow_to_slice_map := mapInsert t.flow_to_slice_map f 0 }
            f 0 s) f 0
          (by
            show mapFind? (mapInsert t.flow_to_slice_map f 0) f = some 0
            exact mapFind_insert_self _ _ _)
        have : some v = some 0 := h1.symm.trans hpres
        exact ⟨List.mem_cons_self f rest, Option.some.inj this⟩
      · have h0' : mapFind?
            (FlowTracker.InsertFlow
              { t with flow_to_slice_map := mapInsert t.flow_to_slice_map g 0 }
              g 0 s).flow_to_slice_map f = none := by
          show mapFind? (mapInsert t.flow_to_slice_map g 0) f = none
          rw [mapFind_insert_ne t.flow_to_slice_map g f 0 hfg]
          exact h0
        obtain ⟨hmem, hv⟩ := ih _ h0' h1
        exact ⟨List.mem_cons_of_mem _ hmem, hv⟩

/-- When every pending flow of the list is active, the loop emits one edge
per entry in list order — `slice_out` the recorded Open-Flow slice,
`slice_in` the closing slice — and leaves the Open-Flow table unchanged. -/
theorem resolve_all_active (s : SliceId) (fs : List FlowId) (t : FlowTracker)
    (h : ∀ f ∈ fs, (mapFind? t.flow_to_slice_map f).isSome = true) :
    (resolvePendingFlows s t fs).flow_to_slice_map = t.flow_to_slice_map ∧
    (resolvePendingFlows s t fs).edges =
      t.edges ++ fs.map (fun f => ((mapFind? t.flow_to_slice_map f).getD 0, s)) := by
  induction fs generalizing t with
  | nil => simp [resolvePendingFlows]
  | cons g rest ih =>
    have hg := h g (List.mem_cons_self g rest)
    obtain ⟨w, hw⟩ : ∃ w, mapFind? t.flow_to_slice_map g = some w := by
      cases hmap : mapFind? t.flow_to_slice_map g with
      | none => rw [hmap] at hg; simp at hg
      | some w => exact ⟨w, rfl⟩
    simp only [resolvePendingFlows]
    rw [bracket_found t g w hw]
    obtain ⟨m1, e1⟩ := ih (FlowTracker.InsertFlow t g w s)
      (fun f hf => h f (List.mem_cons_of_mem _ hf))
    refine ⟨m1, ?_⟩
    rw [e1, InsertFlow_edges]
    simp [hw, InsertFlow_flow_map]

/-! Reachability invariants. -/

/-- Every persisted row got either no argument batch or exactly the pair
(name, cat) of some v1 identity followed by one flush. -/
def WellFormedEdges (t : FlowTracker) : Prop :=
  ∀ e ∈ t.flow_table,
    (e.args = [] ∧ e.flushes = 0) ∨
    ∃ v1 : V1FlowId,
      e.args = [(InternString "name", v1.name), (InternString "cat", v1.cat)] ∧
      e.flushes = 1

/-- The constructor-interned argument keys are still in place and all rows
are well formed. -/
def GoodState (t : FlowTracker) : Prop :=
  t.name_key_id = InternString "name" ∧ t.cat_key_id = InternString "cat" ∧
    WellFormedEdges t

theorem InsertFlow_good (t : FlowTracker) (f : FlowId) (a b : SliceId)
    (h : GoodState t) : GoodState (t.InsertFlow f a b) := by
  obtain ⟨hn, hc, hwf⟩ := h
  refine ⟨hn, hc, ?_⟩
  intro e he
  rw [InsertFlow_flow_table] at he
  rcases List.mem_append.mp he with h1 | h2
  · exact hwf e h1
  · rw [List.mem_singleton] at h2
    subst h2
    cases hv : mapFind? t.flow_id_to_v1_flow_id_map f with
    | none =>
      left
      constructor <;> simp [v1ArgsFor, hv]
    | some v1 =>
      right
      refine ⟨v1, ?_, ?_⟩ <;> simp [v1ArgsFor, hv, hn, hc]

theorem resolve_good (s : SliceId) (fs : List FlowId) (t : FlowTracker)
    (h : GoodState t) : GoodState (resolvePendingFlows s t fs) := by
  induction fs generalizing t with
  | nil => exact h
  | cons g rest ih =>
    simp only [resolvePendingFlows]
    apply ih
    apply InsertFlow_good
    unfold flowMapBracket
    cases mapFind? t.flow_to_slice_map g with
    | none => exact ⟨h.1, h.2.1, h.2.2⟩
    | some w => exact h

theorem applyOp_good (t : FlowTracker) (op : Op) (h : GoodState t) :
    GoodState (applyOp t op) := by
  obtain ⟨hn, hc, hwf⟩ := h
  cases op with
  | opBegin tr os f =>
    simp only [applyOp]
    cases os with
    | none => exact ⟨hn, hc, hwf⟩
    | some sl =>
      cases hm : mapFind? t.flow_to_slice_map f with
      | none =>
        rw [Begin_success t tr f sl hm]
        exact ⟨hn, hc, hwf⟩
      | some w =>
        rw [Begin_dup t tr f w sl hm]
        exact ⟨hn, hc, hwf⟩
  | opStep tr os f =>
    simp only [applyOp]
    cases os with
    | none => exact ⟨hn, hc, hwf⟩
    | some sl =>
      cases hm : mapFind? t.flow_to_slice_map f with
      | none =>
        rw [Step_no_start t tr f sl hm]
        exact ⟨hn, hc, hwf⟩
      | some w =>
        rw [Step_success t tr f w sl hm]
        exact InsertFlow_good t f w sl ⟨hn, hc, hwf⟩
  | opEnd tr os f b c =>
    simp only [applyOp]
    cases b with
    | false => exact ⟨hn, hc, hwf⟩
    | true =>
      cases os with
      | none => exact ⟨hn, hc, hwf⟩
      | some sl =>
        cases hm : mapFind? t.flow_to_slice_map f with
        | none =>
          rw [End_no_start t tr f sl c hm]
          exact ⟨hn, hc, hwf⟩
        | some w =>
          cases c with
          | false =>
            rw [End_success_noclose t tr f w sl hm]
            exact InsertFlow_good t f w sl ⟨hn, hc, hwf⟩
          | true =>
            rw [End_success_close t tr f w sl hm]
            exact InsertFlow_good _ f w sl ⟨hn, hc, hwf⟩
  | opClosePending tr s =>
    simp only [applyOp]
    cases hp : mapFind? t.pending_flow_ids_map tr with
    | none =>
      rw [ClosePending_no_pending t tr s hp]
      exact ⟨hn, hc, hwf⟩
    | some fs =>
      rw [ClosePending_pending t tr s fs hp]
      exact resolve_good s fs t ⟨hn, hc, hwf⟩
  | opGetFlowIdForV1Event sid cat nm =>
    simp only [applyOp]
    cases hm : mapFind? t.v1_flow_id_to_flow_id_map ⟨sid, cat, nm⟩ with
    | some id =>
      rw [Get_found t sid cat nm id hm]
      exact ⟨hn, hc, hwf⟩
    | none =>
      rw [Get_fresh t sid cat nm hm]
      exact ⟨hn, hc, hwf⟩

theorem runOps_good (t : FlowTracker) (ops : List Op) (h : GoodState t) :
    GoodState (runOps t ops) := by
  induction ops generalizing t with
  | nil => exact h
  | cons op rest ih => exact ih _ (applyOp_good t op h)

theorem Reachable_good (t : FlowTracker) (h : Reachable t) : GoodState t := by
  obtain ⟨base, ops, rfl⟩ := h
  refine runOps_good _ _ ⟨rfl, rfl, ?_⟩
  intro e he
  exact absurd he (List.not_mem_nil e)

/-- The synthetic ids handed out so far are `base, base+1, ...` modulo
`2 ^ 64`, in allocation order, and the counter sits one past the last one. -/
def IdInv (t : FlowTracker) : Prop :=
  ∃ b : Nat,
    t.v1_id_counter = (b + t.v1_flow_id_to_flow_id_map.length) % 2 ^ 64 ∧
    t.v1_flow_id_to_flow_id_map.map Prod.snd =
      (List.range t.v1_flow_id_to_flow_id_map.length).map
        (fun i => (b + i) % 2 ^ 64)

theorem IdInv_of_eq {t t' : FlowTracker}
    (h1 : t'.v1_id_counter = t.v1_id_counter)
    (h2 : t'.v1_flow_id_to_flow_id_map = t.v1_flow_id_to_flow_id_map)
    (h : IdInv t) : IdInv t' := by
  obtain ⟨b, hc, hv⟩ := h
  refine ⟨b, ?_, ?_⟩
  · rw [h1, h2]
    exact hc
  · rw [h2]
    exact hv

theorem applyOp_IdInv (t : FlowTracker) (op : Op) (h : IdInv t) :
    IdInv (applyOp t op) := by
  cases op with
  | opBegin tr os f =>
    simp only [applyOp]
    cases os with
    | none => exact IdInv_of_eq rfl rfl h
    | some sl =>
      cases hm : mapFind? t.flow_to_slice_map f with
      | none =>
        rw [Begin_success t tr f sl hm]
        exact IdInv_of_eq rfl rfl h
      | some w =>
        rw [Begin_dup t tr f w sl hm]
        exact IdInv_of_eq rfl rfl h
  | opStep tr os f =>
    simp only [applyOp]
    cases os with
    | none => exact IdInv_of_eq rfl rfl h
    | some sl =>
      cases hm : mapFind? t.flow_to_slice_map f with
      | none =>
        rw [Step_no_start t tr f sl hm]
        exact IdInv_of_eq rfl rfl h
      | some w =>
        rw [Step_success t tr f w sl hm]
        exact IdInv_of_eq rfl rfl h
  | opEnd tr os f b c =>
    simp only [applyOp]
    cases b with
    | false => exact IdInv_of_eq rfl rfl h
    | true =>
      cases os with
      | none => exact IdInv_of_eq rfl rfl h
      | some sl =>
        cases hm : mapFind? t.flow_to_slice_map f with
        | none =>
          rw [End_no_start t tr f sl c hm]
          exact IdInv_of_eq rfl rfl h
        | some w =>
          cases c with
          | false =>
            rw [End_success_noclose t tr f w sl hm]
            exact IdInv_of_eq rfl rfl h
          | true =>
            rw [End_success_close t tr f w sl hm]
            exact IdInv_of_eq rfl rfl h
  | opClosePending tr s =>
    simp only [applyOp]
    cases hp : mapFind? t.pending_flow_ids_map tr with
    | none =>
      rw [ClosePending_no_pending t tr s hp]
      exact h
    | some fs =>
      rw [ClosePending_pending t tr s fs hp]
      have fr := resolve_frame s fs t
      exact IdInv_of_eq fr.2.2.2.1 fr.2.1 h
  | opGetFlowIdForV1Event sid cat nm =>
    simp only [applyOp]
    cases hm : mapFind? t.v1_flow_id_to_flow_id_map ⟨sid, cat, nm⟩ with
    | some id =>
      rw [Get_found t sid cat nm id hm]
      exact h
    | none =>
      rw [Get_fresh t sid cat nm hm]
      obtain ⟨b, hc, hv⟩ := h
      refine ⟨b, ?_, ?_⟩
      · show (t.v1_id_counter + 1) % 2 ^ 64 =
          (b + (mapInsert t.v1_flow_id_to_flow_id_map ⟨sid, cat, nm⟩
            t.v1_id_counter).length) % 2 ^ 64
        rw [mapInsert_of_find_none hm, List.length_append, hc,
          Nat.mod_add_mod]
        simp only [List.length_singleton, Nat.add_assoc]
      · show (mapInsert t.v1_flow_id_to_flow_id_map ⟨sid, cat, nm⟩
            t.v1_id_counter).map Prod.snd =
          (List.range (mapInsert t.v1_flow_id_to_flow_id_map ⟨sid, cat, nm⟩
            t.v1_id_counter).length).map (fun i => (b + i) % 2 ^ 64)
        rw [mapInsert_of_find_none hm, List.length_append, List.map_append,
          hv, hc]
        simp [List.range_succ]

theorem runOps_IdInv (t : FlowTracker) (ops : List Op) (h : IdInv t) :
    IdInv (runOps t ops) := by
  induction ops generalizing t with
  | nil => exact h
  | cons op rest ih => exact ih _ (applyOp_IdInv t op h)

theorem Reachable_IdInv (t : FlowTracker) (h : Reachable t) : IdInv t := by
  obtain ⟨base, ops, rfl⟩ := h
  refine runOps_IdInv _ _ ⟨base, ?_, rfl⟩
  simp [initFlowTracker]

theorem add_mod_inj {W b i j : Nat} (hi : i < W) (hj : j < W)
    (h : (b + i) % W = (b + j) % W) : i = j := by
  have h' : i ≡ j [MOD W] := Nat.ModEq.add_left_cancel' b h
  rwa [Nat.ModEq, Nat.mod_eq_of_lt hi, Nat.mod_eq_of_lt hj] at h'

theorem IdInv_nodup {t : FlowTracker} (h : IdInv t)
    (hn : t.v1_flow_id_to_flow_id_map.length ≤ 2 ^ 64) :
    (t.v1_flow_id_to_flow_id_map.map Prod.snd).Nodup := by
  obtain ⟨b, hc, hv⟩ := h
  rw [hv]
  refine List.Nodup.map_on ?_ (List.nodup_range _)
  intro i hi j hj hij
  rw [List.mem_range] at hi hj
  exact add_mod_inj (lt_of_lt_of_le hi hn) (lt_of_lt_of_le hj hn) hij

@[simp] theorem edges_update_map (t : FlowTracker) (X : List (FlowId × SliceId)) :
    ({ t with flow_to_slice_map := X } : FlowTracker).edges = t.edges := rfl

@[simp] theorem edges_update_pending (t : FlowTracker)
    (X : List (TrackId × List FlowId)) :
    ({ t with pending_flow_ids_map := X } : FlowTracker).edges = t.edges := rfl

/-- A legacy-identity binding, once present, survives any further operation:
the v1 maps are only ever extended (and only by `GetFlowIdForV1Event` at a
fresh identity). -/
theorem applyOp_v1_persist (t : FlowTracker) (op : Op) (k : V1FlowId)
    (v : FlowId) (h : mapFind? t.v1_flow_id_to_flow_id_map k = some v) :
    mapFind? (applyOp t op).v1_flow_id_to_flow_id_map k = some v := by
  cases op with
  | opBegin tr os f =>
    simp only [applyOp]
    cases os with
    | none => exact h
    | some sl =>
      cases hm : mapFind? t.flow_to_slice_map f with
      | none => rw [Begin_success t tr f sl hm]; exact h
      | some w => rw [Begin_dup t tr f w sl hm]; exact h
  | opStep tr os f =>
    simp only [applyOp]
    cases os with
    | none => exact h
    | some sl =>
      cases hm : mapFind? t.flow_to_slice_map f with
      | none => rw [Step_no_start t tr f sl hm]; exact h
      | some w => rw [Step_success t tr f w sl hm]; exact h
  | opEnd tr os f b c =>
    simp only [applyOp]
    cases b with
    | false => exact h
    | true =>
      cases os with
      | none => exact h
      | some sl =>
        cases hm : mapFind? t.flow_to_slice_map f with
        | none => rw [End_no_start t tr f sl c hm]; exact h
        | some w =>
          cases c with
          | false => rw [End_success_noclose t tr f w sl hm]; exact h
          | true => rw [End_success_close t tr f w sl hm]; exact h
  | opClosePending tr s =>
    simp only [applyOp]
    cases hp : mapFind? t.pending_flow_ids_map tr with
    | none => rw [ClosePending_no_pending t tr s hp]; exact h
    | some fs =>
      rw [ClosePending_pending t tr s fs hp]
      show mapFind?
        (resolvePendingFlows s t fs).v1_flow_id_to_flow_id_map k = some v
      rw [(resolve_frame s fs t).2.1]
      exact h
  | opGetFlowIdForV1Event sid cat nm =>
    simp only [applyOp]
    cases hm : mapFind? t.v1_flow_id_to_flow_id_map ⟨sid, cat, nm⟩ with
    | some id => rw [Get_found t sid cat nm id hm]; exact h
    | none =>
      rw [Get_fresh t sid cat nm hm]
      have hk : k ≠ (⟨sid, cat, nm⟩ : V1FlowId) := by
        intro e
        rw [e, hm] at h
        exact Option.noConfusion h
      show mapFind? (mapInsert t.v1_flow_id_to_flow_id_map ⟨sid, cat, nm⟩
        t.v1_id_counter) k = some v
      rw [mapFind_insert_ne _ _ _ _ hk]
      exact h

theorem runOps_v1_persist (t : FlowTracker) (ops : List Op) (k : V1FlowId)
    (v : FlowId) (h : mapFind? t.v1_flow_id_to_flow_id_map k = some v) :
    mapFind? (runOps t ops).v1_flow_id_to_flow_id_map k = some v := by
  induction ops generalizing t with
  | nil => exact h
  | cons op rest ih => exact ih _ (applyOp_v1_persist t op k v h)

theorem IdInv_counter_fresh {t : FlowTracker} (h : IdInv t)
    (hn : t.v1_flow_id_to_flow_id_map.length < 2 ^ 64) :
    ∀ v ∈ t.v1_flow_id_to_flow_id_map.map Prod.snd, v ≠ t.v1_id_counter := by
  obtain ⟨b, hc, hv⟩ := h
  intro v hvmem hvc
  rw [hv] at hvmem
  rw [List.mem_map] at hvmem
  obtain ⟨i, hi, hieq⟩ := hvmem
  rw [List.mem_range] at hi
  rw [hvc, hc] at hieq
  have := add_mod_inj (lt_trans hi hn) hn hieq
  omega

theorem IsActive_false_iff (t : FlowTracker) (f : FlowId) :
    t.IsActive f = false ↔ mapFind? t.flow_to_slice_map f = none := by
  unfold FlowTracker.IsActive
  cases mapFind? t.flow_to_slice_map f <;> simp

/-! Claim theorems. -/

/-- C1: with flow `f` inactive, `Begin` on track A (topmost slice S1)
followed by `End(B, f, bind_enclosing_slice := true, close_flow := true)`
(topmost slice S2 on B) emits exactly the one edge (S1, S2), and `f` is no
longer active afterwards. -/
theorem C1_begin_end_chain (t : FlowTracker) (A B : TrackId) (f : FlowId)
    (S1 S2 : SliceId) (hAB : A ≠ B) (hf : t.IsActive f = false) :
    ((t.Begin A (some S1) f).End B (some S2) f true true).edges =
      t.edges ++ [(S1, S2)] ∧
    ((t.Begin A (some S1) f).End B (some S2) f true true).IsActive f = false := by
  have hfind : mapFind? t.flow_to_slice_map f = none :=
    (IsActive_false_iff t f).mp hf
  rw [Begin_success t A f S1 hfind,
    End_success_close _ B f S1 S2 (mapFind_insert_self t.flow_to_slice_map f S1)]
  constructor
  · rw [InsertFlow_edges]
    rfl
  · show (mapFind? (mapErase (mapInsert t.flow_to_slice_map f S1) f) f).isSome
      = false
    rw [mapFind_erase_self]
    rfl

theorem C1_witness :
    (((initFlowTracker 0).Begin 0 (some 3) 9).End 1 (some 4) 9 true true).edges
        = (initFlowTracker 0).edges ++ [(3, 4)] ∧
    (((initFlowTracker 0).Begin 0 (some 3) 9).End 1 (some 4) 9
        true true).IsActive 9 = false :=
  C1_begin_end_chain (initFlowTracker 0) 0 1 9 3 4 (by decide) rfl

/-- C3 (amended): a binding non-closing `End` on an active flow (recorded
slice S_prev, current open slice S_cur) emits the edge (S_prev, S_cur) and
leaves the flow active, but does NOT update the Open-Flow entry: contrary to
the claim, the entry still maps `f` to S_prev (only `Step` updates it). -/
theorem C3_end_no_close (t : FlowTracker) (tr : TrackId) (f : FlowId)
    (S_prev S_cur : SliceId)
    (h : mapFind? t.flow_to_slice_map f = some S_prev) :
    (t.End tr (some S_cur) f true false).edges = t.edges ++ [(S_prev, S_cur)] ∧
    (t.End tr (some S_cur) f true false).IsActive f = true ∧
    mapFind? (t.End tr (some S_cur) f true false).flow_to_slice_map f
      = some S_prev := by
  rw [End_success_noclose t tr f S_prev S_cur h]
  refine ⟨InsertFlow_edges t f S_prev S_cur, ?_, ?_⟩
  · show (mapFind? t.flow_to_slice_map f).isSome = true
    rw [h]
    rfl
  · exact h

theorem C3_witness :
    mapFind? ((runOps (initFlowTracker 0) [Op.opBegin 0 (some 5) 1]).End
      1 (some 7) 1 true false).flow_to_slice_map 1 = some 5 :=
  (C3_end_no_close (runOps (initFlowTracker 0) [Op.opBegin 0 (some 5) 1])
    1 1 5 7 rfl).2.2

/-- C3 counterexample: after `Begin` with open slice 5 and a binding
non-closing `End` with open slice 7, the Open-Flow entry of flow 1 is still
slice 5 — it was not updated to the current open slice 7 as the claim
states. -/
theorem C3_counterexample :
    mapFind? (runOps (initFlowTracker 0)
      [Op.opBegin 0 (some 5) 1,
        Op.opEnd 1 (some 7) 1 true false]).flow_to_slice_map 1 = some 5 ∧
    ¬ (mapFind? (runOps (initFlowTracker 0)
      [Op.opBegin 0 (some 5) 1,
        Op.opEnd 1 (some 7) 1 true false]).flow_to_slice_map 1 = some 7) := by
  constructor
  · rfl
  · decide

/-- C6: on a track whose topmost-open-slice query answers `none`, each of
`Begin`, `Step` and binding `End` increments only the
`flow_no_enclosing_slice` counter: every other field of the state — the
Open-Flow table, the pending table, the legacy-identity maps, the id
counter, the interned keys and the persisted rows — is left unchanged. -/
theorem C6_no_enclosing_slice (t : FlowTracker) (tr : TrackId) (f : FlowId)
    (cf : Bool) :
    t.Begin tr none f = { t with stats := { t.stats with
        flow_no_enclosing_slice := t.stats.flow_no_enclosing_slice + 1 } } ∧
    t.Step tr none f = { t with stats := { t.stats with
        flow_no_enclosing_slice := t.stats.flow_no_enclosing_slice + 1 } } ∧
    t.End tr none f true cf = { t with stats := { t.stats with
        flow_no_enclosing_slice := t.stats.flow_no_enclosing_slice + 1 } } :=
  ⟨rfl, rfl, rfl⟩

/-- C7: a second `Begin` for an already-active flow (with some slice open)
increments only the `flow_duplicate_id` counter; the slice recorded by the
first `Begin` stays the Open-Flow entry of `f`, and no edge is emitted. -/
theorem C7_duplicate_begin (t : FlowTracker) (tr : TrackId) (f : FlowId)
    (s0 sl : SliceId) (h : mapFind? t.flow_to_slice_map f = some s0) :
    t.Begin tr (some sl) f = { t with stats := { t.stats with
        flow_duplicate_id := t.stats.flow_duplicate_id + 1 } } ∧
    mapFind? (t.Begin tr (some sl) f).flow_to_slice_map f = some s0 := by
  refine ⟨Begin_dup t tr f s0 sl h, ?_⟩
  rw [Begin_dup t tr f s0 sl h]
  exact h

theorem C7_witness :
    mapFind? (((initFlowTracker 0).Begin 0 (some 5) 1).Begin
      0 (some 6) 1).flow_to_slice_map 1 = some 5 :=
  (C7_duplicate_begin ((initFlowTracker 0).Begin 0 (some 5) 1)
    0 1 5 6 rfl).2

/-- C9: `Begin` then two `Step`s on one flow across open slices S1, S2, S3
emit exactly the two edges (S1, S2) then (S2, S3) in call order, and each
`Step` updates the Open-Flow entry to its current open slice (finally S3). -/
theorem Step_success_proj (t : FlowTracker) (tr : TrackId) (f : FlowId)
    (s_out s_cur : SliceId)
    (h : mapFind? t.flow_to_slice_map f = some s_out) :
    (t.Step tr (some s_cur) f).edges = t.edges ++ [(s_out, s_cur)] ∧
    (t.Step tr (some s_cur) f).flow_to_slice_map =
      mapInsert t.flow_to_slice_map f s_cur := by
  rw [Step_success t tr f s_out s_cur h]
  exact ⟨InsertFlow_edges t f s_out s_cur, rfl⟩

theorem C9_multi_hop (t : FlowTracker) (trA trB trC : TrackId) (f : FlowId)
    (S1 S2 S3 : SliceId) (hf : mapFind? t.flow_to_slice_map f = none) :
    (((t.Begin trA (some S1) f).Step trB (some S2) f).Step
        trC (some S3) f).edges = t.edges ++ [(S1, S2), (S2, S3)] ∧
    mapFind? (((t.Begin trA (some S1) f).Step trB (some S2) f).Step
        trC (some S3) f).flow_to_slice_map f = some S3 := by
  have h1 := Begin_success t trA f S1 hf
  have e1 : (t.Begin trA (some S1) f).edges = t.edges := by rw [h1]; rfl
  have m1 : (t.Begin trA (some S1) f).flow_to_slice_map =
      mapInsert t.flow_to_slice_map f S1 := by rw [h1]
  obtain ⟨e2, m2⟩ := Step_success_proj (t.Begin trA (some S1) f) trB f S1 S2
    (by rw [m1]; exact mapFind_insert_self _ _ _)
  obtain ⟨e3, m3⟩ := Step_success_proj _ trC f S2 S3
    (by rw [m2]; exact mapFind_insert_self _ _ _)
  constructor
  · rw [e3, e2, e1]
    simp
  · rw [m3]
    exact mapFind_insert_self _ _ _

theorem C9_witness :
    ((((initFlowTracker 0).Begin 0 (some 11) 4).Step 1 (some 12) 4).Step
        2 (some 13) 4).edges = (initFlowTracker 0).edges ++
      [(11, 12), (12, 13)] :=
  (C9_multi_hop (initFlowTracker 0) 0 1 2 4 11 12 13 rfl).1

/-- C10: `End` with `bind_enclosing_slice := false` unconditionally appends
the flow id to the track's pending list and changes nothing else — it never
queries the slice tracker, checks no preconditions, bumps no counter, emits
no edge and ignores `close_flow` (the result does not depend on it). -/
theorem C10_deferred_end (t : FlowTracker) (tr : TrackId)
    (os : Option SliceId) (f : FlowId) (cf : Bool) :
    t.End tr os f false cf =
      { t with pending_flow_ids_map :=
          pendPush t.pending_flow_ids_map tr f } ∧
    mapFind? (t.End tr os f false cf).pending_flow_ids_map tr =
      some ((mapFind? t.pending_flow_ids_map tr).getD [] ++ [f]) := by
  refine ⟨rfl, ?_⟩
  show mapFind? (pendPush t.pending_flow_ids_map tr f) tr = _
  unfold pendPush
  exact mapFind_insert_self _ _ _

/-- C2: resolving the pending list `fs` of track `tr` (all of whose flows
are active) with closing slice S emits exactly one edge per queued entry, in
arrival order, each `(recorded Open-Flow slice, S)`; it leaves the Open-Flow
table unchanged (entries are not removed), clears the track's pending list,
and an immediately repeated call is a complete no-op. -/
theorem C2_close_pending (t : FlowTracker) (tr : TrackId) (S S' : SliceId)
    (fs : List FlowId)
    (hp : mapFind? t.pending_flow_ids_map tr = some fs)
    (ha : ∀ f ∈ fs, (mapFind? t.flow_to_slice_map f).isSome = true) :
    (t.ClosePendingEventsOnTrack tr S).edges =
      t.edges ++ fs.map (fun f => ((mapFind? t.flow_to_slice_map f).getD 0, S)) ∧
    (t.ClosePendingEventsOnTrack tr S).flow_to_slice_map =
      t.flow_to_slice_map ∧
    mapFind? (t.ClosePendingEventsOnTrack tr S).pending_flow_ids_map tr =
      none ∧
    (t.ClosePendingEventsOnTrack tr S).ClosePendingEventsOnTrack tr S' =
      t.ClosePendingEventsOnTrack tr S := by
  obtain ⟨hmap, hedges⟩ := resolve_all_active S fs t ha
  rw [ClosePending_pending t tr S fs hp]
  refine ⟨?_, ?_, ?_, ?_⟩
  · show (resolvePendingFlows S t fs).edges = _
    exact hedges
  · exact hmap
  · exact mapFind_erase_self _ _
  · exact ClosePending_no_pending _ tr S' (mapFind_erase_self _ _)

theorem C2_witness :
    (FlowTracker.ClosePendingEventsOnTrack (runOps (initFlowTracker 0)
      [Op.opBegin 0 (some 5) 1, Op.opEnd 1 none 1 false true]) 1 9).edges =
      (runOps (initFlowTracker 0)
        [Op.opBegin 0 (some 5) 1, Op.opEnd 1 none 1 false true]).edges ++
      List.map (fun f => ((mapFind? (FlowTracker.flow_to_slice_map
        (runOps (initFlowTracker 0)
          [Op.opBegin 0 (some 5) 1, Op.opEnd 1 none 1 false true]))
        f).getD 0, 9)) [1] :=
  (C2_close_pending (runOps (initFlowTracker 0)
      [Op.opBegin 0 (some 5) 1, Op.opEnd 1 none 1 false true])
    1 9 10 [1] rfl (by decide)).1

/-- C4 (amended): when an operation turns a previously inactive flow id `f`
active, that operation is either a successful `Begin` of `f` (a slice was
open and `f` was free), or — contrary to the claim — a
`ClosePendingEventsOnTrack` whose pending list contains `f`: resolving a
pending flow id with no Open-Flow entry default-inserts an entry mapping it
to slice id 0 (`std::unordered_map::operator[]` value-initialisation). -/
theorem C4_open_flow_creation (t : FlowTracker) (op : Op) (f : FlowId)
    (h1 : t.IsActive f = false) (h2 : (applyOp t op).IsActive f = true) :
    (∃ tr s, op = Op.opBegin tr (some s) f ∧
      mapFind? t.flow_to_slice_map f = none) ∨
    (∃ tr s fs, op = Op.opClosePending tr s ∧
      mapFind? t.pending_flow_ids_map tr = some fs ∧ f ∈ fs ∧
      mapFind? (applyOp t op).flow_to_slice_map f = some 0) := by
  have hfind : mapFind? t.flow_to_slice_map f = none :=
    (IsActive_false_iff t f).mp h1
  have hfalse : (mapFind? t.flow_to_slice_map f).isSome = false := by
    rw [hfind]
    rfl
  cases op with
  | opBegin tr os f' =>
    simp only [applyOp] at h2
    cases os with
    | none =>
      rw [Begin_no_slice] at h2
      exact absurd (hfalse.symm.trans h2) (by decide)
    | some sl =>
      cases hm : mapFind? t.flow_to_slice_map f' with
      | some w =>
        rw [Begin_dup t tr f' w sl hm] at h2
        exact absurd (hfalse.symm.trans h2) (by decide)
      | none =>
        by_cases hff : f = f'
        · subst hff
          exact Or.inl ⟨tr, sl, rfl, hfind⟩
        · exfalso
          have h2' : (mapFind? (mapInsert t.flow_to_slice_map f' sl) f).isSome
              = true := by
            rw [Begin_success t tr f' sl hm] at h2
            exact h2
          rw [mapFind_insert_ne t.flow_to_slice_map f' f sl hff] at h2'
          exact absurd (hfalse.symm.trans h2') (by decide)
  | opStep tr os f' =>
    exfalso
    simp only [applyOp] at h2
    cases os with
    | none =>
      rw [Step_no_slice] at h2
      exact absurd (hfalse.symm.trans h2) (by decide)
    | some sl =>
      cases hm : mapFind? t.flow_to_slice_map f' with
      | none =>
        rw [Step_no_start t tr f' sl hm] at h2
        exact absurd (hfalse.symm.trans h2) (by decide)
      | some w =>
        by_cases hff : f = f'
        · subst hff
          rw [hfind] at hm
          exact Option.noConfusion hm
        · have h2' : (mapFind? (mapInsert t.flow_to_slice_map f' sl) f).isSome
              = true := by
            rw [Step_success t tr f' w sl hm] at h2
            exact h2
          rw [mapFind_insert_ne t.flow_to_slice_map f' f sl hff] at h2'
          exact absurd (hfalse.symm.trans h2') (by decide)
  | opEnd tr os f' b c =>
    exfalso
    simp only [applyOp] at h2
    cases b with
    | false =>
      rw [End_deferred] at h2
      exact absurd (hfalse.symm.trans h2) (by decide)
    | true =>
      cases os with
      | none =>
        rw [End_no_slice] at h2
        exact absurd (hfalse.symm.trans h2) (by decide)
      | some sl =>
        cases hm : mapFind? t.flow_to_slice_map f' with
        | none =>
          rw [End_no_start t tr f' sl c hm] at h2
          exact absurd (hfalse.symm.trans h2) (by decide)
        | some w =>
          cases c with
          | false =>
            rw [End_success_noclose t tr f' w sl hm] at h2
            exact absurd (hfalse.symm.trans h2) (by decide)
          | true =>
            have h2' : (mapFind? (mapErase t.flow_to_slice_map f') f).isSome
                = true := by
              rw [End_success_close t tr f' w sl hm] at h2
              exact h2
            by_cases hff : f = f'
            · subst hff
              rw [mapFind_erase_self] at h2'
              exact absurd h2' (by decide)
            · rw [mapFind_erase_ne t.flow_to_slice_map f' f hff] at h2'
              exact absurd (hfalse.symm.trans h2') (by decide)
  | opClosePending tr s =>
    cases hp : mapFind? t.pending_flow_ids_map tr with
    | none =>
      exfalso
      simp only [applyOp] at h2
      rw [ClosePending_no_pending t tr s hp] at h2
      exact absurd (hfalse.symm.trans h2) (by decide)
    | some fs =>
      have h2' : (mapFind?
          (resolvePendingFlows s t fs).flow_to_slice_map f).isSome = true := by
        simp only [applyOp] at h2
        rw [ClosePending_pending t tr s fs hp] at h2
        exact h2
      obtain ⟨v, hv⟩ : ∃ v,
          mapFind? (resolvePendingFlows s t fs).flow_to_slice_map f
            = some v := by
        cases hvv : mapFind? (resolvePendingFlows s t fs).flow_to_slice_map f
          with
        | none => rw [hvv] at h2'; exact absurd h2' (by decide)
        | some v => exact ⟨v, rfl⟩
      obtain ⟨hmem, hv0⟩ := resolve_new_entry s fs t f v hfind hv
      subst hv0
      refine Or.inr ⟨tr, s, fs, rfl, hp, hmem, ?_⟩
      simp only [applyOp]
      rw [ClosePending_pending t tr s fs hp]
      exact hv
  | opGetFlowIdForV1Event sid cat nm =>
    exfalso
    simp only [applyOp] at h2
    cases hm : mapFind? t.v1_flow_id_to_flow_id_map ⟨sid, cat, nm⟩ with
    | some id =>
      rw [Get_found t sid cat nm id hm] at h2
      exact absurd (hfalse.symm.trans h2) (by decide)
    | none =>
      rw [Get_fresh t sid cat nm hm] at h2
      exact absurd (hfalse.symm.trans h2) (by decide)

theorem C4_witness :
    (∃ tr s, Op.opBegin 0 (some 5) 1 = Op.opBegin tr (some s) 1 ∧
      mapFind? (initFlowTracker 0).flow_to_slice_map 1 = none) ∨
    (∃ tr s fs, Op.opBegin 0 (some 5) 1 = Op.opClosePending tr s ∧
      mapFind? (initFlowTracker 0).pending_flow_ids_map tr = some fs ∧
      (1 : FlowId) ∈ fs ∧
      mapFind? (applyOp (initFlowTracker 0)
        (Op.opBegin 0 (some 5) 1)).flow_to_slice_map 1 = some 0) :=
  C4_open_flow_creation (initFlowTracker 0) (Op.opBegin 0 (some 5) 1) 1
    rfl rfl

/-- C4 counterexample: `End(track 0, flow 7, bind_enclosing_slice := false)`
then `ClosePendingEventsOnTrack(track 0, slice 3)` makes flow 7 active (with
the default slice 0, emitting the bogus edge (0, 3)) even though no `Begin`
for 7 ever succeeded — refuting the claim that `ClosePendingEventsOnTrack`
never adds an Open-Flow entry for a flow id that was not active. -/
theorem C4_counterexample :
    (runOps (initFlowTracker 0)
      [Op.opEnd 0 none 7 false false]).IsActive 7 = false ∧
    (runOps (initFlowTracker 0)
      [Op.opEnd 0 none 7 false false,
        Op.opClosePending 0 3]).IsActive 7 = true ∧
    (runOps (initFlowTracker 0)
      [Op.opEnd 0 none 7 false false,
        Op.opClosePending 0 3]).edges = [(0, 3)] := by
  refine ⟨rfl, rfl, rfl⟩

/-- C5 (amended): in any reachable state, every persisted edge row carries
either no attached arguments and no flush, or exactly two string arguments —
under the interned key "name" the identity's name, then under the interned
key "cat" (not "category" as the claim states) the identity's category —
followed by exactly one flush; and each `InsertFlow` emission attaches the
two-argument batch exactly when its flow id has a legacy identity. -/
theorem C5_legacy_args (t : FlowTracker) (h : Reachable t) :
    (∀ e ∈ t.flow_table,
      (e.args = [] ∧ e.flushes = 0) ∨
      ∃ v1 : V1FlowId,
        e.args = [(InternString "name", v1.name), (InternString "cat", v1.cat)]
          ∧ e.flushes = 1) ∧
    (∀ f so si,
      (mapFind? t.flow_id_to_v1_flow_id_map f = none →
        (t.InsertFlow f so si).flow_table = t.flow_table ++
          [{ slice_out := so, slice_in := si, args := [], flushes := 0 }]) ∧
      (∀ v1, mapFind? t.flow_id_to_v1_flow_id_map f = some v1 →
        (t.InsertFlow f so si).flow_table = t.flow_table ++
          [{ slice_out := so, slice_in := si,
             args := [(InternString "name", v1.name),
                      (InternString "cat", v1.cat)],
             flushes := 1 }])) := by
  obtain ⟨hn, hc, hwf⟩ := Reachable_good t h
  refine ⟨hwf, ?_⟩
  intro f so si
  constructor
  · intro hnone
    rw [InsertFlow_flow_table]
    simp [v1ArgsFor, hnone]
  · intro v1 hsome
    rw [InsertFlow_flow_table]
    simp [v1ArgsFor, hsome, hn, hc]

theorem C5_witness :
    ((initFlowTracker 0).InsertFlow 3 1 2).flow_table =
      (initFlowTracker 0).flow_table ++
        [{ slice_out := 1, slice_in := 2, args := [], flushes := 0 }] :=
  ((C5_legacy_args (initFlowTracker 0) ⟨0, [], rfl⟩).2 3 1 2).1 rfl

/-- C5 counterexample: an edge emitted for a legacy flow (identity
(4, "c", "n")) carries its category value under the attribute key "cat" —
there is no attribute under the key "category" claimed by the spec. -/
theorem C5_counterexample :
    (runOps (initFlowTracker 0)
      [Op.opGetFlowIdForV1Event 4 "c" "n", Op.opBegin 0 (some 5) 0,
        Op.opStep 1 (some 6) 0]).flow_table =
      [{ slice_out := 5, slice_in := 6,
         args := [("name", "n"), ("cat", "c")], flushes := 1 }] ∧
    List.map (fun e => e.args.filter (fun p => decide (p.1 = "category")))
      (runOps (initFlowTracker 0)
        [Op.opGetFlowIdForV1Event 4 "c" "n", Op.opBegin 0 (some 5) 0,
          Op.opStep 1 (some 6) 0]).flow_table = [[]] := by
  refine ⟨rfl, rfl⟩

/-- C8: the legacy-identity resolver is a deterministic memoised mapping.
After any first call for a triple and any interleaved operations, a repeated
call with the identical triple returns the same FlowId and leaves the state
(in particular both identity maps) completely unchanged; and a call with a
different triple returns a distinct FlowId, provided fewer than 2^64 legacy
identities have been allocated (so the 64-bit id counter has not wrapped). -/
theorem C8_legacy_id_memo (t : FlowTracker) (h : Reachable t)
    (s1 : Nat) (c1 n1 : StringId) (ops : List Op)
    (s2 : Nat) (c2 n2 : StringId)
    (hn : (runOps (t.GetFlowIdForV1Event s1 c1 n1).2
        ops).v1_flow_id_to_flow_id_map.length < 2 ^ 64) :
    (((runOps (t.GetFlowIdForV1Event s1 c1 n1).2 ops).GetFlowIdForV1Event
        s1 c1 n1).1 = (t.GetFlowIdForV1Event s1 c1 n1).1 ∧
      ((runOps (t.GetFlowIdForV1Event s1 c1 n1).2 ops).GetFlowIdForV1Event
        s1 c1 n1).2 = runOps (t.GetFlowIdForV1Event s1 c1 n1).2 ops) ∧
    (V1FlowId.mk s1 c1 n1 ≠ V1FlowId.mk s2 c2 n2 →
      ((runOps (t.GetFlowIdForV1Event s1 c1 n1).2 ops).GetFlowIdForV1Event
        s2 c2 n2).1 ≠ (t.GetFlowIdForV1Event s1 c1 n1).1) := by
  have hb1 : mapFind?
      (t.GetFlowIdForV1Event s1 c1 n1).2.v1_flow_id_to_flow_id_map
      ⟨s1, c1, n1⟩ = some (t.GetFlowIdForV1Event s1 c1 n1).1 := by
    cases hm : mapFind? t.v1_flow_id_to_flow_id_map ⟨s1, c1, n1⟩ with
    | some id =>
      rw [Get_found t s1 c1 n1 id hm]
      exact hm
    | none =>
      rw [Get_fresh t s1 c1 n1 hm]
      exact mapFind_insert_self _ _ _
  have hb2 : mapFind?
      (runOps (t.GetFlowIdForV1Event s1 c1 n1).2 ops).v1_flow_id_to_flow_id_map
      ⟨s1, c1, n1⟩ = some (t.GetFlowIdForV1Event s1 c1 n1).1 :=
    runOps_v1_persist _ ops _ _ hb1
  have hreach2 : Reachable (runOps (t.GetFlowIdForV1Event s1 c1 n1).2 ops) :=
    h.runOps (Op.opGetFlowIdForV1Event s1 c1 n1 :: ops)
  have hinv := Reachable_IdInv _ hreach2
  refine ⟨⟨?_, ?_⟩, ?_⟩
  · rw [Get_found _ s1 c1 n1 _ hb2]
  · rw [Get_found _ s1 c1 n1 _ hb2]
  · intro hne
    cases hm2 : mapFind?
        (runOps (t.GetFlowIdForV1Event s1 c1 n1).2
          ops).v1_flow_id_to_flow_id_map ⟨s2, c2, n2⟩ with
    | some id2 =>
      rw [Get_found _ s2 c2 n2 id2 hm2]
      exact mapFind_inj (IdInv_nodup hinv (le_of_lt hn)) hm2 hb2 (Ne.symm hne)
    | none =>
      rw [Get_fresh _ s2 c2 n2 hm2]
      have hmem : (t.GetFlowIdForV1Event s1 c1 n1).1 ∈
          (runOps (t.GetFlowIdForV1Event s1 c1 n1).2
            ops).v1_flow_id_to_flow_id_map.map Prod.snd :=
        List.mem_map.mpr ⟨(⟨s1, c1, n1⟩, (t.GetFlowIdForV1Event s1 c1 n1).1),
          mapFind_mem hb2, rfl⟩
      exact Ne.symm (IdInv_counter_fresh hinv hn _ hmem)

theorem C8_witness :
    ((runOps ((initFlowTracker 0).GetFlowIdForV1Event 1 "a" "b").2
      []).GetFlowIdForV1Event 1 "a" "b").1 =
      ((initFlowTracker 0).GetFlowIdForV1Event 1 "a" "b").1 ∧
    ((runOps ((initFlowTracker 0).GetFlowIdForV1Event 1 "a" "b").2
      []).GetFlowIdForV1Event 2 "a" "b").1 ≠
      ((initFlowTracker 0).GetFlowIdForV1Event 1 "a" "b").1 :=
  ⟨(C8_legacy_id_memo (initFlowTracker 0) ⟨0, [], rfl⟩ 1 "a" "b" [] 2 "a" "b"
      (by decide)).1.1,
    (C8_legacy_id_memo (initFlowTracker 0) ⟨0, [], rfl⟩ 1 "a" "b" [] 2 "a" "b"
      (by decide)).2 (by decide)⟩

end FlowVerif
